import Mathlib

/-!
Verification development for the FsmOS cooperative scheduler
(src/FsmOS/FsmOS.cpp together with its header src/lib/FsmOS/FsmOS.h).

The kernel is shallowly embedded: every definition below mirrors one
function of the C++ source, translated field by field.  Machine integers
are modelled as Nat with explicit wrap-around (mod 2^32 or 2^16) exactly
at the places where the C++ arithmetic can wrap.  User task code
(the virtual step and on_msg hooks) is external to the kernel; the kernel
invocation of on_msg is recorded in a delivery log so that delivery
behaviour is observable, and step is modelled as having no effect on
kernel-owned task fields (the kernel itself never lets step touch them).
-/

namespace FsmOS

/-! ## Compile-time configuration (src/lib/FsmOS/FsmOS.h) -/

/-- Hard cap on total queue nodes and pool records (FsmOS.h line 92). -/
def MAX_MESSAGE_POOL_SIZE : Nat := 32

/-- MAX_TOPICS for the default TOPIC_BITFIELD_SIZE = 16 (FsmOS.h lines 77-79). -/
def MAX_TOPICS : Nat := 16

/-- Default per-step message production budget (FsmOS.h line 572). -/
def DEFAULT_TASK_MESSAGE_BUDGET : Nat := 1

/-- Default task period in milliseconds (FsmOS.h line 1439). -/
def DEFAULT_TASK_PERIOD : Nat := 100

/-- Minimum allowed task period (FsmOS.h line 1445). -/
def MIN_TASK_PERIOD : Nat := 1

/-- Maximum allowed task period (FsmOS.h line 1451). -/
def MAX_TASK_PERIOD : Nat := 65535

/-- Modulus of uint32 arithmetic. -/
def U32 : Nat := 4294967296

/-- Modulus of uint16 arithmetic. -/
def U16 : Nat := 65536

/-- uint32 subtraction a - b with wrap-around, for a b < 2^32. -/
def sub32 (a b : Nat) : Nat := (a + U32 - b % U32) % U32

/-! ## Task state (FsmOS.h lines 744-750) -/

/-- Task::State enumeration. -/
inductive TaskState where
  | INACTIVE
  | ACTIVE
  | SUSPENDED
  | TERMINATED
deriving Repr, DecidableEq

/-! ## Queued messages (FsmOS.h lines 1379-1392)

A QueuedMessage holds the target id and an embedded MsgData copy
(type, topic, arg).  The optional retained byte buffer is not involved
in any property below and the enqueue overload modelled here
(Scheduler::enqueueQueuedMessage, FsmOS.cpp 1806) never attaches one. -/

/-- One queued message: targetTaskId plus the embedded MsgData fields. -/
structure QueuedMessage where
  targetTaskId : Nat
  topic : Nat
  type : Nat
  arg : Nat
deriving Repr, DecidableEq

/-! ## Task (FsmOS.h lines 577-980)

The C++ object packs state and priority into one byte
(stateAndPriority, low nibble = state, high nibble = priority);
the embedding keeps them as two fields.  maxMessageBudget models the
value returned by the virtual Task::getMaxMessageBudget() that the
scheduler consults (the base-class body returns
DEFAULT_TASK_MESSAGE_BUDGET; a derived task may return any uint8). -/

/-- Kernel-owned fields of one Task object. -/
structure Task where
  taskId : Nat
  state : TaskState
  priority : Nat
  remainingTime : Nat
  periodMs : Nat
  subscribedTopics : Nat
  maxMessageBudget : Nat
  runCount : Nat
  maxExecTimeUs : Nat
  avgExecTimeUs : Nat
  scheduledTime : Nat
  actualStartTime : Nat
  delayCount : Nat
  maxDelayMs : Nat
deriving Repr, DecidableEq

/-- Task::subscribe (FsmOS.h 814-820): set one bit, topics at or beyond
MAX_TOPICS are ignored silently. -/
def Task.subscribe (t : Task) (topic : Nat) : Task :=
  if topic < MAX_TOPICS then
    { t with subscribedTopics := t.subscribedTopics ||| (1 <<< topic) }
  else t

/-- Task::unsubscribe (FsmOS.h 826-832): clear one bit; the C++
expression is subscribedTopics AND NOT(1 << topic) on a uint16,
so NOT is complement within 16 bits. -/
def Task.unsubscribe (t : Task) (topic : Nat) : Task :=
  if topic < MAX_TOPICS then
    { t with subscribedTopics := t.subscribedTopics &&& (65535 ^^^ (1 <<< topic)) }
  else t

/-- Task::isSubscribedToTopic (FsmOS.h 839-846). -/
def Task.isSubscribedToTopic (t : Task) (topic : Nat) : Bool :=
  if topic ≥ MAX_TOPICS then false
  else t.subscribedTopics &&& (1 <<< topic) ≠ 0

/-- Task::start (FsmOS.cpp 479-487). -/
def Task.start (t : Task) : Task :=
  if t.state = TaskState.INACTIVE then
    { t with state := TaskState.ACTIVE, remainingTime := t.periodMs }
  else t

/-- Task::stop (FsmOS.cpp 489-496); on_stop is user code with no
kernel-field effect. -/
def Task.stop (t : Task) : Task :=
  if t.state = TaskState.ACTIVE ∨ t.state = TaskState.SUSPENDED then
    { t with state := TaskState.INACTIVE }
  else t

/-- Task::suspend (FsmOS.cpp 498-504): only sets the state; nothing is
buffered and no suspended queue exists in this implementation. -/
def Task.suspend (t : Task) : Task :=
  if t.state = TaskState.ACTIVE then { t with state := TaskState.SUSPENDED } else t

/-- Task::resume (FsmOS.cpp 506-513). -/
def Task.resume (t : Task) : Task :=
  if t.state = TaskState.SUSPENDED then
    { t with state := TaskState.ACTIVE, remainingTime := t.periodMs }
  else t

/-- Task::terminate (FsmOS.cpp 515). -/
def Task.terminate (t : Task) : Task :=
  { t with state := TaskState.TERMINATED }

/-- Task::setPeriod (FsmOS.cpp 517-520): clamp into
[MIN_TASK_PERIOD, MAX_TASK_PERIOD]. -/
def Task.setPeriod (t : Task) (period : Nat) : Task :=
  { t with periodMs :=
      if period < MIN_TASK_PERIOD then MIN_TASK_PERIOD
      else if period > MAX_TASK_PERIOD then MAX_TASK_PERIOD
      else period }

/-- The one-per-tick countdown applied to every task by
Scheduler::loopOnce (FsmOS.cpp 933-940): decrement remainingTime only
when the task is ACTIVE and remainingTime > 0. -/
def Task.tickCountdown (t : Task) : Task :=
  if t.state = TaskState.ACTIVE ∧ t.remainingTime > 0 then
    { t with remainingTime := t.remainingTime - 1 }
  else t

/-! ## Message data pool (FsmOS.cpp 182-306)

MsgDataPool hands out records from a fixed backing array of
poolLimit = MAX_MESSAGE_POOL_SIZE records.  allocate returns the array
index of the record it hands out (the C++ returns the record's address
pool + nextFree).  The lazy backing allocation of initialize is
modelled as succeeding; on failure the C++ allocate returns nullptr and
the pool stays retriable, which no claim below concerns. -/

/-- State of MsgDataPool: the two cursors, the adaptive active size and
whether the backing array exists yet. -/
structure MsgDataPool where
  initialized : Bool
  poolSize : Nat
  poolLimit : Nat
  currentInUse : Nat
  nextFree : Nat
deriving Repr, DecidableEq

/-- The pool as constructed (FsmOS.cpp 183-188): no backing array yet. -/
def MsgDataPool.mkEmpty : MsgDataPool :=
  { initialized := false, poolSize := 0, poolLimit := MAX_MESSAGE_POOL_SIZE,
    currentInUse := 0, nextFree := 0 }

/-- MsgDataPool::updateAdaptiveLimit (FsmOS.cpp 258-270). -/
def MsgDataPool.updateAdaptiveLimit (p : MsgDataPool) : MsgDataPool :=
  if p.currentInUse > (p.poolSize * 3) / 4 ∧ p.poolSize < p.poolLimit then
    { p with poolSize := p.poolSize + 1 }
  else if p.currentInUse < p.poolSize / 4 ∧ p.poolSize > 4 then
    { p with poolSize := p.poolSize - 1 }
  else p

/-- MsgDataPool::initialize (FsmOS.cpp 278-306) with the backing
allocation succeeding: set poolSize to poolLimit and zero all records. -/
def MsgDataPool.initializePool (p : MsgDataPool) : MsgDataPool :=
  if p.initialized then p
  else { p with initialized := true, poolSize := p.poolLimit }

/-- MsgDataPool::allocate (FsmOS.cpp 199-234).  Returns the updated pool
and the index of the record handed out (none when currentInUse has
reached poolSize).  The record at nextFree is zeroed and returned,
currentInUse is incremented, nextFree advances modulo poolSize, and the
adaptive limit is updated.  Nothing checks whether the record at
nextFree is currently in use. -/
def MsgDataPool.allocate (p : MsgDataPool) : MsgDataPool × Option Nat :=
  let p := p.initializePool
  if p.currentInUse ≥ p.poolSize then (p, none)
  else
    let idx := p.nextFree
    let p := { p with currentInUse := p.currentInUse + 1,
                      nextFree := (p.nextFree + 1) % p.poolSize }
    (p.updateAdaptiveLimit, some idx)

/-- MsgDataPool::deallocate (FsmOS.cpp 236-256): zero the record's
fields (not tracked here beyond the index argument), decrement
currentInUse, update the adaptive limit.  The index argument is the
record being freed; the C++ state change does not depend on it. -/
def MsgDataPool.deallocate (p : MsgDataPool) (idx : Nat) : MsgDataPool :=
  if ¬ p.initialized then p
  else
    let _ := idx
    ({ p with currentInUse := p.currentInUse - 1 }).updateAdaptiveLimit

/-! ## Reset cause decoding (FsmOS.cpp 1437-1489, FsmOS.h 164-189) -/

/-- ResetCause enumeration (FsmOS.h 164-172). -/
inductive ResetCause where
  | RESET_UNKNOWN
  | RESET_POWER_ON
  | RESET_EXTERNAL
  | RESET_BROWN_OUT
  | RESET_WATCHDOG
  | RESET_MULTIPLE
deriving Repr, DecidableEq

/-- The numeric value the C enum assigns to each enumerator
(sequential from 0, FsmOS.h 164-172). -/
def ResetCause.toCode : ResetCause → Nat
  | .RESET_UNKNOWN => 0
  | .RESET_POWER_ON => 1
  | .RESET_EXTERNAL => 2
  | .RESET_BROWN_OUT => 3
  | .RESET_WATCHDOG => 4
  | .RESET_MULTIPLE => 5

/-- MCUSR flag masks as on AVR (FsmOS.h 180-183): PORF = bit 0,
EXTRF = bit 1, BORF = bit 2, WDRF = bit 3. -/
def RESET_CAUSE_POWER_ON : Nat := 1

/-- External reset flag, bit 1. -/
def RESET_CAUSE_EXTERNAL : Nat := 2

/-- Brown-out reset flag, bit 2. -/
def RESET_CAUSE_BROWN_OUT : Nat := 4

/-- Watchdog reset flag, bit 3. -/
def RESET_CAUSE_WATCHDOG : Nat := 8

/-- Scheduler::getResetCause (FsmOS.cpp 1437-1489), parametrised by the
raw flags byte that the C++ reads from GPIOR0. -/
def getResetCause (flags : Nat) : ResetCause :=
  if flags = 0 then ResetCause.RESET_UNKNOWN
  else
    let count :=
      (if flags &&& RESET_CAUSE_POWER_ON ≠ 0 then 1 else 0) +
      (if flags &&& RESET_CAUSE_EXTERNAL ≠ 0 then 1 else 0) +
      (if flags &&& RESET_CAUSE_BROWN_OUT ≠ 0 then 1 else 0) +
      (if flags &&& RESET_CAUSE_WATCHDOG ≠ 0 then 1 else 0)
    if count > 1 then ResetCause.RESET_MULTIPLE
    else if flags &&& RESET_CAUSE_POWER_ON ≠ 0 then ResetCause.RESET_POWER_ON
    else if flags &&& RESET_CAUSE_EXTERNAL ≠ 0 then ResetCause.RESET_EXTERNAL
    else if flags &&& RESET_CAUSE_BROWN_OUT ≠ 0 then ResetCause.RESET_BROWN_OUT
    else if flags &&& RESET_CAUSE_WATCHDOG ≠ 0 then ResetCause.RESET_WATCHDOG
    else ResetCause.RESET_UNKNOWN

/-- Modelled from the spec: the derived reset cause as the spec words it
(count the set bits among the four known cause bits; more than one gives
MULTIPLE, exactly one gives its enumerator, none gives UNKNOWN).  Used
only as the comparison point for the refinement claim about
getResetCause. -/
def specResetCause (flags : Nat) : ResetCause :=
  let hits : List ResetCause :=
    (if flags &&& RESET_CAUSE_POWER_ON ≠ 0 then [ResetCause.RESET_POWER_ON] else []) ++
    (if flags &&& RESET_CAUSE_EXTERNAL ≠ 0 then [ResetCause.RESET_EXTERNAL] else []) ++
    (if flags &&& RESET_CAUSE_BROWN_OUT ≠ 0 then [ResetCause.RESET_BROWN_OUT] else []) ++
    (if flags &&& RESET_CAUSE_WATCHDOG ≠ 0 then [ResetCause.RESET_WATCHDOG] else [])
  match hits with
  | [] => ResetCause.RESET_UNKNOWN
  | [c] => c
  | _ => ResetCause.RESET_MULTIPLE

/-! ## Scheduler state (FsmOS.h 997-1423)

The global message queue is a singly linked FIFO of MsgNode records
with an attached free-list; the embedding keeps the FIFO as a list,
the free-list and the node total as counts (nodes carry no observable
identity).  The delivered log is the observation of the kernel's
on_msg invocations in Scheduler::processMessages. -/

/-- Scheduler state. -/
structure Scheduler where
  tasks : List Task
  queue : List QueuedMessage
  msgCount : Nat
  freeCount : Nat
  totalNodes : Nat
  systemTime : Nat
  running : Bool
  lastExecutedTaskId : Nat
  lastTaskEndTime : Nat
  delivered : List QueuedMessage
deriving Repr, DecidableEq

/-- Scheduler::getFreeQueueSlots (FsmOS.cpp 1749-1752):
MAX_MESSAGE_POOL_SIZE - msgCount (msgCount never exceeds the cap). -/
def Scheduler.getFreeQueueSlots (s : Scheduler) : Nat :=
  MAX_MESSAGE_POOL_SIZE - s.msgCount

/-- Scheduler::getTask (FsmOS.cpp 885-888): first task in list order
whose id matches. -/
def Scheduler.getTask (s : Scheduler) (task_id : Nat) : Option Task :=
  s.tasks.find? (fun t => t.taskId = task_id)

/-- Scheduler::allocateMsgNodesChunk (FsmOS.cpp 1773-1804): refuse when
the hard cap is reached, otherwise grow the free-list by up to 4 nodes
without exceeding the cap (each node's malloc modelled as succeeding;
on malloc failure the C++ stops early and still returns true). -/
def Scheduler.allocateMsgNodesChunk (s : Scheduler) : Scheduler × Bool :=
  if s.totalNodes ≥ MAX_MESSAGE_POOL_SIZE then (s, false)
  else
    let canAdd := MAX_MESSAGE_POOL_SIZE - s.totalNodes
    let toAdd := if canAdd ≥ 4 then 4 else canAdd
    ({ s with freeCount := s.freeCount + toAdd, totalNodes := s.totalNodes + toAdd }, true)

/-- Second half of Scheduler::enqueueQueuedMessage (FsmOS.cpp 1813-1843),
after the growth attempt: refuse when the free-list is still empty,
otherwise take a node off the free-list, fill it with the message fields
and append it to the tail. -/
def Scheduler.enqueueTakeNode (s : Scheduler)
    (targetTaskId topic type arg : Nat) : Scheduler × Bool :=
  if s.freeCount = 0 then (s, false)
  else
    ({ s with freeCount := s.freeCount - 1,
              queue := s.queue ++ [⟨targetTaskId, topic, type, arg⟩],
              msgCount := s.msgCount + 1 }, true)

/-- Scheduler::enqueueQueuedMessage (FsmOS.cpp 1806-1844): refuse when
msgCount has reached MAX_MESSAGE_POOL_SIZE; when the free-list is empty
try to grow it by a chunk; then take a node and append (refusing when
the free-list is still empty). -/
def Scheduler.enqueueQueuedMessage (s : Scheduler)
    (targetTaskId topic type arg : Nat) : Scheduler × Bool :=
  if s.msgCount ≥ MAX_MESSAGE_POOL_SIZE then (s, false)
  else
    Scheduler.enqueueTakeNode
      (if s.freeCount = 0 then (s.allocateMsgNodesChunk).1 else s)
      targetTaskId topic type arg

/-- Scheduler::dequeueQueuedMessage (FsmOS.cpp 1846-1862): detach the
head; the node is not recycled here (the caller recycles it). -/
def Scheduler.dequeueQueuedMessage (s : Scheduler) : Scheduler × Option QueuedMessage :=
  if s.msgCount = 0 then (s, none)
  else
    match s.queue with
    | [] => (s, none)
    | m :: rest => ({ s with queue := rest, msgCount := s.msgCount - 1 }, some m)

/-- Scheduler::deallocateMsgNode (FsmOS.cpp 1381-1406): reset the node
and return it to the free-list (the retained buffer is freed). -/
def Scheduler.deallocateMsgNode (s : Scheduler) : Scheduler :=
  { s with freeCount := s.freeCount + 1 }

/-- Scheduler::publishMessage (FsmOS.cpp 965-975): walk the task list
and enqueue one copy for every task that is ACTIVE and subscribed to the
topic; the boolean result of each enqueue is discarded. -/
def Scheduler.publishMessage (s : Scheduler) (topic type arg : Nat) : Scheduler :=
  s.tasks.foldl
    (fun st t =>
      if t.state = TaskState.ACTIVE ∧ t.isSubscribedToTopic topic then
        (st.enqueueQueuedMessage t.taskId topic type arg).1
      else st)
    s

/-- Scheduler::sendMessage (FsmOS.cpp 977-986): look the target up; when
it is missing or not ACTIVE, return with no state change (the message is
dropped); otherwise enqueue a direct message (topic 0), discarding the
boolean result. -/
def Scheduler.sendMessage (s : Scheduler) (task_id type arg : Nat) : Scheduler :=
  match s.getTask task_id with
  | none => s
  | some target =>
    if target.state = TaskState.ACTIVE then
      (s.enqueueQueuedMessage task_id 0 type arg).1
    else s

/-- Task::publish (FsmOS.cpp 554-557): void, forwards to
Scheduler::publishMessage.  The producing task observes nothing. -/
def Task.publish (s : Scheduler) (topic type arg : Nat) : Scheduler :=
  s.publishMessage topic type arg

/-- Task::tell (FsmOS.cpp 559-562): void, forwards to
Scheduler::sendMessage.  The producing task observes nothing. -/
def Task.tell (s : Scheduler) (target_task_id type arg : Nat) : Scheduler :=
  s.sendMessage target_task_id type arg

/-- Whether Scheduler::processMessages invokes on_msg for a dequeued
message (FsmOS.cpp 1095-1099): the target must exist (first id match)
and be ACTIVE. -/
def deliverFlag (tasks : List Task) (m : QueuedMessage) : Bool :=
  match tasks.find? (fun t => t.taskId = m.targetTaskId) with
  | some t => t.state = TaskState.ACTIVE
  | none => false

/-- Scheduler::processMessages (FsmOS.cpp 1077-1105): loop until
msgCount reaches 0, each iteration detaching the head node, invoking the
target's on_msg when the target exists and is ACTIVE, and recycling the
node to the free-list after the handler returns.  The code maintains
msgCount equal to the queue length (invariant I3), so the loop drains
the whole queue and recycles one node per message.  on_msg is user code;
its kernel-visible trace is the delivered log. -/
def Scheduler.processMessages (s : Scheduler) : Scheduler :=
  { s with queue := [],
           msgCount := 0,
           freeCount := s.freeCount + s.msgCount,
           delivered := s.delivered ++ s.queue.filter (deliverFlag s.tasks) }

/-- Scheduler::updateSystemTime (FsmOS.cpp 1107): systemTime := millis();
the millisecond timebase is an external input, passed as nowMs. -/
def Scheduler.updateSystemTime (s : Scheduler) (nowMs : Nat) : Scheduler :=
  { s with systemTime := nowMs % U32 }

/-- Loop body of the Scheduler::findNextTask scan (FsmOS.cpp 1115-1155),
with the free queue slot count fixed for the scan (the loop body does
not change it).  A task competes when it is ACTIVE with remainingTime 0;
it is skipped when free < getMaxMessageBudget(); otherwise it replaces
the current best when its priority is strictly higher, or equal with a
strictly smaller id.  (The C++ also tracks a shortestTime local that
never affects the returned task.) -/
def selectBetter (free : Nat) (t : Task) (best : Option Task) : Option Task :=
  if t.state = TaskState.ACTIVE ∧ t.remainingTime = 0 then
    if free < t.maxMessageBudget then best
    else
      match best with
      | none => some t
      | some b =>
        if t.priority > b.priority then some t
        else if t.priority = b.priority ∧ t.taskId < b.taskId then some t
        else some b
  else best

/-- The scan loop of Scheduler::findNextTask, folding selectBetter over
the task list in list order. -/
def Scheduler.findNextTaskGo (free : Nat) : List Task → Option Task → Option Task
  | [], best => best
  | t :: rest, best => Scheduler.findNextTaskGo free rest (selectBetter free t best)

/-- Scheduler::findNextTask (FsmOS.cpp 1109-1159). -/
def Scheduler.findNextTask (s : Scheduler) : Option Task :=
  Scheduler.findNextTaskGo s.getFreeQueueSlots s.tasks none

/-- Scheduler::handleTaskTiming (FsmOS.cpp 1188-1210): scheduledTime is
set to currentTime - period (uint32), actualStartTime to currentTime;
whenever actualStartTime > scheduledTime the delay (clamped to 16 bits)
is recorded: delayCount increments (uint16) and maxDelayMs is raised.
logTaskDelay is a no-op (FsmOS.cpp 1285-1291). -/
def Task.handleTaskTiming (t : Task) (currentTime : Nat) : Task :=
  let scheduled := sub32 currentTime t.periodMs
  let t := { t with scheduledTime := scheduled, actualStartTime := currentTime }
  if t.actualStartTime > t.scheduledTime then
    let delay := t.actualStartTime - t.scheduledTime
    let delayMs := if delay > 65535 then 65535 else delay
    { t with delayCount := (t.delayCount + 1) % U16,
             maxDelayMs := if delayMs > t.maxDelayMs then delayMs else t.maxDelayMs }
  else t

/-- Scheduler::executeTaskStep (FsmOS.cpp 1212-1219): reset
remainingTime to the period, then run step().  step is user code and
does not touch kernel-owned task fields. -/
def Task.executeTaskStep (t : Task) : Task :=
  { t with remainingTime := t.periodMs }

/-- Scheduler::updateTaskStatistics (FsmOS.cpp 1221-1269), parametrised
by the measured execution time already clamped to 16 bits.  runCount
saturates at 65535; the average is a simple moving average until
saturation and then an exponential one with factor 1/1000. -/
def Task.updateTaskStatistics (t : Task) (execTime16 : Nat) : Task :=
  let t := if t.runCount < 65535 then { t with runCount := t.runCount + 1 } else t
  let t := if execTime16 > t.maxExecTimeUs then { t with maxExecTimeUs := execTime16 } else t
  if t.runCount = 1 then { t with avgExecTimeUs := execTime16 }
  else if t.runCount = 65535 then
    let adjustment := (execTime16 - t.avgExecTimeUs) / 1000
    let newAvg := t.avgExecTimeUs + adjustment
    { t with avgExecTimeUs := if newAvg > 65535 then 65535 else newAvg }
  else
    let newAvg := (t.avgExecTimeUs * (t.runCount - 1) + execTime16) / t.runCount
    { t with avgExecTimeUs := if newAvg > 65535 then 65535 else newAvg }

/-- Scheduler::remove (FsmOS.cpp 829-869) restricted to what
checkForTerminatedTask needs: unlink the first node holding this task
(matched here by id) and recycle the node. -/
def removeFirstById (l : List Task) (id : Nat) : List Task :=
  match l with
  | [] => []
  | t :: rest => if t.taskId = id then rest else t :: removeFirstById rest id

/-- The transformations Scheduler::executeTask applies to the dispatched
task record itself: handleTaskTiming, executeTaskStep (remainingTime
reset plus the user step), then updateTaskStatistics.  The micros()
execution-time measurement is an external clock; its elapsed value is 0
under the constant-clock model used here (no claim concerns the
exec-time statistics). -/
def executedTask (t : Task) (currentTime : Nat) : Task :=
  ((t.handleTaskTiming currentTime).executeTaskStep).updateTaskStatistics 0

/-- Scheduler::checkForTerminatedTask (FsmOS.cpp 1277-1283): when the
task ended the step TERMINATED, unlink its node from the task list. -/
def Scheduler.checkForTerminatedTask (s : Scheduler) (t3 : Task) : Scheduler :=
  if t3.state = TaskState.TERMINATED then
    { s with tasks := removeFirstById s.tasks t3.taskId }
  else s

/-- Scheduler::executeTask (FsmOS.cpp 1161-1185): timing, step,
statistics, bookkeeping of lastExecutedTaskId and lastTaskEndTime
(FsmOS.cpp 1271-1275), then reclamation of a TERMINATED task.  The C++
mutates the task through its pointer; the embedding writes the updated
record back to the (unique) list slot with the same id. -/
def Scheduler.executeTask (s : Scheduler) (t : Task) : Scheduler :=
  if t.state ≠ TaskState.ACTIVE then s
  else
    Scheduler.checkForTerminatedTask
      { s with
        tasks := s.tasks.map (fun u =>
          if u.taskId = t.taskId then executedTask t s.systemTime else u),
        lastExecutedTaskId := (executedTask t s.systemTime).taskId,
        lastTaskEndTime := s.systemTime }
      (executedTask t s.systemTime)

/-- The tick phases of Scheduler::loopOnce that precede task selection
(FsmOS.cpp 931-946): refresh the system time, apply the countdown to
every task, feed the watchdog (hardware, no state) and drain the
message queue. -/
def Scheduler.preDispatchState (s : Scheduler) (nowMs : Nat) : Scheduler :=
  let s1 := s.updateSystemTime nowMs
  let s2 := { s1 with tasks := s1.tasks.map Task.tickCountdown }
  s2.processMessages

/-- Scheduler::loopOnce (FsmOS.cpp 924-953): when running, run the
pre-dispatch phases, then select and execute at most one task. -/
def Scheduler.loopOnce (s : Scheduler) (nowMs : Nat) : Scheduler :=
  if s.running = false then s
  else
    let s3 := s.preDispatchState nowMs
    match s3.findNextTask with
    | none => s3
    | some t => s3.executeTask t

/-! ## Properties of the selection scan (Scheduler::findNextTask) -/

/-- A task that competes for dispatch in the findNextTask scan: ACTIVE,
due (remainingTime 0), and not gated out by the budget check. -/
def readyTask (free : Nat) (t : Task) : Prop :=
  t.state = TaskState.ACTIVE ∧ t.remainingTime = 0 ∧ t.maxMessageBudget ≤ free

instance (free : Nat) (t : Task) : Decidable (readyTask free t) := by
  unfold readyTask; infer_instance

/-- The selection order computed by the scan: r beats u when r has
strictly higher priority, or equal priority and an id that is no
larger. -/
def domTask (r u : Task) : Prop :=
  u.priority ≤ r.priority ∧ (u.priority = r.priority → r.taskId ≤ u.taskId)

theorem domTask_refl (t : Task) : domTask t t :=
  ⟨le_refl _, fun _ => le_refl _⟩

theorem domTask_trans {a b c : Task} (h1 : domTask a b) (h2 : domTask b c) :
    domTask a c := by
  obtain ⟨hp1, hi1⟩ := h1
  obtain ⟨hp2, hi2⟩ := h2
  refine ⟨le_trans hp2 hp1, fun hpe => ?_⟩
  have hbc : c.priority = b.priority := le_antisymm (hpe ▸ hp2) (hpe ▸ hp1)
  exact le_trans (hi1 (by omega)) (hi2 hbc)

theorem selectBetter_some_cases (free : Nat) (t b : Task) :
    selectBetter free t (some b) = some b ∨ selectBetter free t (some b) = some t := by
  by_cases hc : t.state = TaskState.ACTIVE ∧ t.remainingTime = 0
  · by_cases hg : free < t.maxMessageBudget
    · left; simp only [selectBetter]; rw [if_pos hc, if_pos hg]
    · by_cases hp : t.priority > b.priority
      · right; simp only [selectBetter]; rw [if_pos hc, if_neg hg, if_pos hp]
      · by_cases hq : t.priority = b.priority ∧ t.taskId < b.taskId
        · right; simp only [selectBetter]; rw [if_pos hc, if_neg hg, if_neg hp, if_pos hq]
        · left; simp only [selectBetter]; rw [if_pos hc, if_neg hg, if_neg hp, if_neg hq]
  · left; simp only [selectBetter]; rw [if_neg hc]

theorem selectBetter_some_of_ready {free : Nat} {t : Task} (best : Option Task)
    (h : readyTask free t) : ∃ r, selectBetter free t best = some r := by
  obtain ⟨h1, h2, h3⟩ := h
  have hng : ¬ free < t.maxMessageBudget := by omega
  cases best with
  | none =>
    exact ⟨t, by simp only [selectBetter]; rw [if_pos ⟨h1, h2⟩, if_neg hng]⟩
  | some b =>
    by_cases hp : t.priority > b.priority
    · exact ⟨t, by simp only [selectBetter]; rw [if_pos ⟨h1, h2⟩, if_neg hng, if_pos hp]⟩
    · by_cases hq : t.priority = b.priority ∧ t.taskId < b.taskId
      · exact ⟨t, by
          simp only [selectBetter]; rw [if_pos ⟨h1, h2⟩, if_neg hng, if_neg hp, if_pos hq]⟩
      · exact ⟨b, by
          simp only [selectBetter]; rw [if_pos ⟨h1, h2⟩, if_neg hng, if_neg hp, if_neg hq]⟩

theorem selectBetter_ready {free : Nat} {t : Task} {best : Option Task} {r : Task}
    (hbest : ∀ b, best = some b → readyTask free b)
    (h : selectBetter free t best = some r) : readyTask free r := by
  cases best with
  | none =>
    simp only [selectBetter] at h
    by_cases hc : t.state = TaskState.ACTIVE ∧ t.remainingTime = 0
    · rw [if_pos hc] at h
      by_cases hg : free < t.maxMessageBudget
      · rw [if_pos hg] at h; exact hbest r h
      · rw [if_neg hg] at h
        exact (Option.some.inj h) ▸ ⟨hc.1, hc.2, by omega⟩
    · rw [if_neg hc] at h; exact hbest r h
  | some b =>
    simp only [selectBetter] at h
    by_cases hc : t.state = TaskState.ACTIVE ∧ t.remainingTime = 0
    · rw [if_pos hc] at h
      by_cases hg : free < t.maxMessageBudget
      · rw [if_pos hg] at h; exact hbest r h
      · rw [if_neg hg] at h
        have hready_t : readyTask free t := ⟨hc.1, hc.2, by omega⟩
        by_cases hp : t.priority > b.priority
        · rw [if_pos hp] at h
          exact (Option.some.inj h) ▸ hready_t
        · rw [if_neg hp] at h
          by_cases hq : t.priority = b.priority ∧ t.taskId < b.taskId
          · rw [if_pos hq] at h
            exact (Option.some.inj h) ▸ hready_t
          · rw [if_neg hq] at h
            exact (Option.some.inj h) ▸ hbest b rfl
    · rw [if_neg hc] at h; exact hbest r h

theorem selectBetter_mem {free : Nat} {t : Task} {best : Option Task} {r : Task}
    (h : selectBetter free t best = some r) : r = t ∨ best = some r := by
  cases best with
  | none =>
    simp only [selectBetter] at h
    by_cases hc : t.state = TaskState.ACTIVE ∧ t.remainingTime = 0
    · rw [if_pos hc] at h
      by_cases hg : free < t.maxMessageBudget
      · rw [if_pos hg] at h; exact Or.inr h
      · rw [if_neg hg] at h; exact Or.inl (Option.some.inj h).symm
    · rw [if_neg hc] at h; exact Or.inr h
  | some b =>
    simp only [selectBetter] at h
    by_cases hc : t.state = TaskState.ACTIVE ∧ t.remainingTime = 0
    · rw [if_pos hc] at h
      by_cases hg : free < t.maxMessageBudget
      · rw [if_pos hg] at h; exact Or.inr h
      · rw [if_neg hg] at h
        by_cases hp : t.priority > b.priority
        · rw [if_pos hp] at h; exact Or.inl (Option.some.inj h).symm
        · rw [if_neg hp] at h
          by_cases hq : t.priority = b.priority ∧ t.taskId < b.taskId
          · rw [if_pos hq] at h; exact Or.inl (Option.some.inj h).symm
          · rw [if_neg hq] at h; exact Or.inr h
    · rw [if_neg hc] at h; exact Or.inr h

theorem selectBetter_dom_best {free : Nat} {t b r : Task}
    (h : selectBetter free t (some b) = some r) : domTask r b := by
  simp only [selectBetter] at h
  by_cases hc : t.state = TaskState.ACTIVE ∧ t.remainingTime = 0
  · rw [if_pos hc] at h
    by_cases hg : free < t.maxMessageBudget
    · rw [if_pos hg] at h
      exact (Option.some.inj h) ▸ domTask_refl b
    · rw [if_neg hg] at h
      by_cases hp : t.priority > b.priority
      · rw [if_pos hp] at h
        have ht := (Option.some.inj h).symm
        subst ht
        exact ⟨le_of_lt hp, fun he => by omega⟩
      · rw [if_neg hp] at h
        by_cases hq : t.priority = b.priority ∧ t.taskId < b.taskId
        · rw [if_pos hq] at h
          have ht := (Option.some.inj h).symm
          subst ht
          exact ⟨le_of_eq hq.1.symm, fun _ => le_of_lt hq.2⟩
        · rw [if_neg hq] at h
          exact (Option.some.inj h) ▸ domTask_refl b
  · rw [if_neg hc] at h
    exact (Option.some.inj h) ▸ domTask_refl b

theorem selectBetter_dom_head {free : Nat} {t : Task} {best : Option Task} {r : Task}
    (ht : readyTask free t) (h : selectBetter free t best = some r) : domTask r t := by
  obtain ⟨h1, h2, h3⟩ := ht
  have hng : ¬ free < t.maxMessageBudget := by omega
  cases best with
  | none =>
    simp only [selectBetter] at h
    rw [if_pos ⟨h1, h2⟩, if_neg hng] at h
    exact (Option.some.inj h) ▸ domTask_refl t
  | some b =>
    simp only [selectBetter] at h
    rw [if_pos ⟨h1, h2⟩, if_neg hng] at h
    by_cases hp : t.priority > b.priority
    · rw [if_pos hp] at h
      exact (Option.some.inj h) ▸ domTask_refl t
    · rw [if_neg hp] at h
      by_cases hq : t.priority = b.priority ∧ t.taskId < b.taskId
      · rw [if_pos hq] at h
        exact (Option.some.inj h) ▸ domTask_refl t
      · rw [if_neg hq] at h
        have hb := (Option.some.inj h).symm
        subst hb
        push_neg at hq
        refine ⟨by omega, fun he => ?_⟩
        rcases Decidable.em (t.priority = r.priority) with hpe | hpe
        · have := hq hpe
          omega
        · omega

theorem findNextTaskGo_some (free : Nat) (l : List Task) (b : Task) :
    ∃ r, Scheduler.findNextTaskGo free l (some b) = some r := by
  induction l generalizing b with
  | nil => exact ⟨b, rfl⟩
  | cons t rest ih =>
    rcases selectBetter_some_cases free t b with h | h
    · simpa [Scheduler.findNextTaskGo, h] using ih b
    · simpa [Scheduler.findNextTaskGo, h] using ih t

theorem findNextTaskGo_some_of_ready {free : Nat} {u : Task}
    (hready : readyTask free u) :
    ∀ (l : List Task) (best : Option Task), u ∈ l →
      ∃ r, Scheduler.findNextTaskGo free l best = some r := by
  intro l
  induction l with
  | nil => intro best hu; cases hu
  | cons t rest ih =>
    intro best hu
    rcases List.mem_cons.mp hu with he | hm
    · subst he
      obtain ⟨r2, hr2⟩ := selectBetter_some_of_ready best hready
      simp only [Scheduler.findNextTaskGo, hr2]
      exact findNextTaskGo_some free rest r2
    · simp only [Scheduler.findNextTaskGo]
      exact ih _ hm

theorem findNextTaskGo_ready {free : Nat} :
    ∀ (l : List Task) (best : Option Task) (r : Task),
      (∀ b, best = some b → readyTask free b) →
      Scheduler.findNextTaskGo free l best = some r → readyTask free r := by
  intro l
  induction l with
  | nil =>
    intro best r hbest h
    simp only [Scheduler.findNextTaskGo] at h
    exact hbest r h
  | cons t rest ih =>
    intro best r hbest h
    simp only [Scheduler.findNextTaskGo] at h
    exact ih _ r (fun b2 hb2 => selectBetter_ready hbest hb2) h

theorem findNextTaskGo_mem {free : Nat} :
    ∀ (l : List Task) (best : Option Task) (r : Task),
      Scheduler.findNextTaskGo free l best = some r → r ∈ l ∨ best = some r := by
  intro l
  induction l with
  | nil =>
    intro best r h
    simp only [Scheduler.findNextTaskGo] at h
    exact Or.inr h
  | cons t rest ih =>
    intro best r h
    simp only [Scheduler.findNextTaskGo] at h
    rcases ih _ r h with hm | hb
    · exact Or.inl (List.mem_cons_of_mem _ hm)
    · rcases selectBetter_mem hb with he | hb2
      · exact Or.inl (he ▸ List.mem_cons_self _ _)
      · exact Or.inr hb2

theorem findNextTaskGo_dom {free : Nat} :
    ∀ (l : List Task) (best : Option Task) (r : Task),
      Scheduler.findNextTaskGo free l best = some r →
      (∀ b, best = some b → domTask r b) ∧
      (∀ u ∈ l, readyTask free u → domTask r u) := by
  intro l
  induction l with
  | nil =>
    intro best r h
    simp only [Scheduler.findNextTaskGo] at h
    refine ⟨fun b hb => ?_, fun u hu => absurd hu (List.not_mem_nil u)⟩
    rw [h] at hb
    exact (Option.some.inj hb) ▸ domTask_refl r
  | cons t rest ih =>
    intro best r h
    simp only [Scheduler.findNextTaskGo] at h
    obtain ⟨ih1, ih2⟩ := ih (selectBetter free t best) r h
    constructor
    · intro b hb
      subst hb
      rcases selectBetter_some_cases free t b with he | he
      · exact ih1 b he
      · exact domTask_trans (ih1 t he) (selectBetter_dom_best he)
    · intro u hu hready
      rcases List.mem_cons.mp hu with he | hm
      · subst he
        obtain ⟨r2, hr2⟩ := selectBetter_some_of_ready best hready
        exact domTask_trans (ih1 r2 hr2) (selectBetter_dom_head hready hr2)
      · exact ih2 u hm hready

/-! ## Concrete states used by witnesses and counterexamples -/

/-- A baseline task record with neutral statistics. -/
def baseTask : Task :=
  { taskId := 1, state := TaskState.ACTIVE, priority := 2, remainingTime := 0,
    periodMs := 10, subscribedTopics := 0, maxMessageBudget := 1, runCount := 0,
    maxExecTimeUs := 0, avgExecTimeUs := 0, scheduledTime := 0,
    actualStartTime := 0, delayCount := 0, maxDelayMs := 0 }

/-- Second task: id 2, higher priority 3. -/
def baseTaskB : Task := { baseTask with taskId := 2, priority := 3 }

/-- A scheduler with tasks A (id 1, priority 2) and B (id 2, priority 3),
both ready, and an empty queue. -/
def baseSched : Scheduler :=
  { tasks := [baseTask, baseTaskB], queue := [], msgCount := 0, freeCount := 0,
    totalNodes := 0, systemTime := 0, running := true, lastExecutedTaskId := 0,
    lastTaskEndTime := 0, delivered := [] }

/-- A task that declares message budget 0 (a derived getMaxMessageBudget
may return 0; the code comment says a budget of 0 means the task wants
no message production and is respected). -/
def budgetZeroTask : Task := { baseTask with maxMessageBudget := 0 }

/-- An arbitrary queued message used to model a full queue. -/
def dummyMsg : QueuedMessage := { targetTaskId := 1, topic := 0, type := 0, arg := 0 }

/-- A scheduler whose global queue is completely full
(msgCount = MAX_MESSAGE_POOL_SIZE = 32, no free nodes) holding one
active, due task with declared budget 0. -/
def fullQueueSched : Scheduler :=
  { baseSched with tasks := [budgetZeroTask],
                   queue := List.replicate 32 dummyMsg,
                   msgCount := 32, freeCount := 0, totalNodes := 32 }

/-! ## C1 -/

/-- C1: on every tick in which at least one task is ready, the scan of
Scheduler::findNextTask (whose result Scheduler::loopOnce executes)
returns a ready task that has the highest priority among the ready
tasks, and, among ready tasks of that highest priority, the smallest
task id.  Ready here is the eligibility the scan tests: ACTIVE,
remainingTime 0, and enough free queue slots for the declared budget. -/
theorem C1_priority_selection (s : Scheduler) (u : Task)
    (hu : u ∈ s.tasks) (hready : readyTask s.getFreeQueueSlots u) :
    ∃ t, s.findNextTask = some t ∧ t ∈ s.tasks ∧
      readyTask s.getFreeQueueSlots t ∧
      ∀ v ∈ s.tasks, readyTask s.getFreeQueueSlots v →
        v.priority ≤ t.priority ∧
        (v.priority = t.priority → t.taskId ≤ v.taskId) := by
  obtain ⟨r, hr⟩ := findNextTaskGo_some_of_ready hready s.tasks none hu
  refine ⟨r, hr, ?_, ?_, ?_⟩
  · rcases findNextTaskGo_mem s.tasks none r hr with hm | hb
    · exact hm
    · cases hb
  · exact findNextTaskGo_ready s.tasks none r (fun b hb => by cases hb) hr
  · intro v hv hrv
    exact (findNextTaskGo_dom s.tasks none r hr).2 v hv hrv

/-- Witness for C1 at the spec's tie-break scenario: A (id 1, priority 2)
and B (id 2, priority 3) both ready; the selected task is B. -/
theorem C1_witness :
    baseTask ∈ baseSched.tasks ∧
    readyTask baseSched.getFreeQueueSlots baseTask ∧
    (∃ t, baseSched.findNextTask = some t ∧ t ∈ baseSched.tasks ∧
      readyTask baseSched.getFreeQueueSlots t ∧
      ∀ v ∈ baseSched.tasks, readyTask baseSched.getFreeQueueSlots v →
        v.priority ≤ t.priority ∧
        (v.priority = t.priority → t.taskId ≤ v.taskId)) :=
  ⟨by decide, by decide,
    C1_priority_selection baseSched baseTask (by decide) (by decide)⟩

/-! ## C2 -/

/-- C2 (counterexample to the claim as stated): the claim requires a
task with declared budget b to be dispatched only when the free queue
slot count is at least max(b, 1).  In this state the single task has
declared budget 0 and the queue is completely full (0 free slots), yet
Scheduler::findNextTask selects it for dispatch: the code gates with
free < budget, so a budget of 0 disables the gate entirely. -/
theorem C2_counterexample :
    fullQueueSched.findNextTask = some budgetZeroTask ∧
    fullQueueSched.getFreeQueueSlots < max budgetZeroTask.maxMessageBudget 1 := by
  constructor
  · decide
  · decide

/-- C2 (amended): a task is dispatched by the findNextTask scan only
when it is ACTIVE with remainingTime 0 and the number of free global
queue slots is at least its declared budget b (so at least max(b, 1)
whenever b is at least 1); an active due task failing the gate
free_queue_slots >= b is skipped for that tick. -/
theorem C2_budget_gate (s : Scheduler) (t : Task)
    (h : s.findNextTask = some t) :
    t.state = TaskState.ACTIVE ∧ t.remainingTime = 0 ∧
    t.maxMessageBudget ≤ s.getFreeQueueSlots :=
  findNextTaskGo_ready s.tasks none t (fun b hb => by cases hb) h

/-- Witness for C2's amended theorem at the two-task state. -/
theorem C2_witness :
    baseSched.findNextTask = some baseTaskB ∧
    (baseTaskB.state = TaskState.ACTIVE ∧ baseTaskB.remainingTime = 0 ∧
      baseTaskB.maxMessageBudget ≤ baseSched.getFreeQueueSlots) :=
  ⟨by decide, C2_budget_gate baseSched baseTaskB (by decide)⟩

/-! ## Queue lemmas for C5 and C6 -/

theorem allocateMsgNodesChunk_queue (s : Scheduler) :
    (s.allocateMsgNodesChunk).1.queue = s.queue := by
  unfold Scheduler.allocateMsgNodesChunk
  split <;> rfl

theorem allocateMsgNodesChunk_msgCount (s : Scheduler) :
    (s.allocateMsgNodesChunk).1.msgCount = s.msgCount := by
  unfold Scheduler.allocateMsgNodesChunk
  split <;> rfl

theorem allocateMsgNodesChunk_tasks (s : Scheduler) :
    (s.allocateMsgNodesChunk).1.tasks = s.tasks := by
  unfold Scheduler.allocateMsgNodesChunk
  split <;> rfl

theorem allocateMsgNodesChunk_eq_of_cap (s : Scheduler)
    (h : MAX_MESSAGE_POOL_SIZE ≤ s.totalNodes) :
    (s.allocateMsgNodesChunk).1 = s := by
  unfold Scheduler.allocateMsgNodesChunk
  rw [if_pos (by omega)]

theorem allocateMsgNodesChunk_freeCount_pos (s : Scheduler)
    (h : s.totalNodes < MAX_MESSAGE_POOL_SIZE) :
    0 < (s.allocateMsgNodesChunk).1.freeCount := by
  have h32 : s.totalNodes < 32 := h
  unfold Scheduler.allocateMsgNodesChunk
  rw [if_neg (by omega)]
  show 0 < s.freeCount +
    (if MAX_MESSAGE_POOL_SIZE - s.totalNodes ≥ 4 then 4
     else MAX_MESSAGE_POOL_SIZE - s.totalNodes)
  have hm : MAX_MESSAGE_POOL_SIZE = 32 := rfl
  split <;> omega

/-- The conditional growth step at the start of enqueueQueuedMessage
does not touch the queue. -/
theorem growIfNeeded_queue (s : Scheduler) :
    (if s.freeCount = 0 then (s.allocateMsgNodesChunk).1 else s).queue = s.queue := by
  split
  · exact allocateMsgNodesChunk_queue s
  · rfl

theorem growIfNeeded_msgCount (s : Scheduler) :
    (if s.freeCount = 0 then (s.allocateMsgNodesChunk).1 else s).msgCount = s.msgCount := by
  split
  · exact allocateMsgNodesChunk_msgCount s
  · rfl

theorem enqueueTakeNode_of_none (s : Scheduler) (tgt tp ty a : Nat)
    (h : s.freeCount = 0) : s.enqueueTakeNode tgt tp ty a = (s, false) := by
  unfold Scheduler.enqueueTakeNode
  rw [if_pos h]

theorem enqueueTakeNode_of_some (s : Scheduler) (tgt tp ty a : Nat)
    (h : s.freeCount ≠ 0) :
    s.enqueueTakeNode tgt tp ty a =
      ({ s with freeCount := s.freeCount - 1,
                queue := s.queue ++ [⟨tgt, tp, ty, a⟩],
                msgCount := s.msgCount + 1 }, true) := by
  unfold Scheduler.enqueueTakeNode
  rw [if_neg h]

/-! ## C5 -/

/-- C5 (counterexample to the claim as stated): with the global queue
completely full, the enqueue is refused (the internal
Scheduler::enqueueQueuedMessage reports false), yet the producing task's
tell call surfaces nothing: Task::tell is void in the source
(FsmOS.cpp 559-562), embedded as returning only the (unchanged)
scheduler state, so no false result reaches the producer. -/
theorem C5_counterexample :
    Task.tell fullQueueSched 1 7 42 = fullQueueSched ∧
    (fullQueueSched.enqueueQueuedMessage 1 0 7 42).2 = false := by
  constructor
  · decide
  · decide

/-- An enqueue reports true exactly when it appended the message (and
bumped msgCount); on false the queue and msgCount are unchanged. -/
theorem enqueueQueuedMessage_spec (s : Scheduler) (tgt tp ty a : Nat) :
    ((s.enqueueQueuedMessage tgt tp ty a).2 = true →
      (s.enqueueQueuedMessage tgt tp ty a).1.queue = s.queue ++ [⟨tgt, tp, ty, a⟩] ∧
      (s.enqueueQueuedMessage tgt tp ty a).1.msgCount = s.msgCount + 1) ∧
    ((s.enqueueQueuedMessage tgt tp ty a).2 = false →
      (s.enqueueQueuedMessage tgt tp ty a).1.queue = s.queue ∧
      (s.enqueueQueuedMessage tgt tp ty a).1.msgCount = s.msgCount) := by
  unfold Scheduler.enqueueQueuedMessage
  by_cases h1 : s.msgCount ≥ MAX_MESSAGE_POOL_SIZE
  · rw [if_pos h1]
    exact ⟨fun h => (nomatch h), fun _ => ⟨rfl, rfl⟩⟩
  · rw [if_neg h1]
    by_cases hf : (if s.freeCount = 0 then (s.allocateMsgNodesChunk).1 else s).freeCount = 0
    · rw [enqueueTakeNode_of_none _ tgt tp ty a hf]
      refine ⟨fun h => (nomatch h), fun _ => ⟨?_, ?_⟩⟩
      · exact growIfNeeded_queue s
      · exact growIfNeeded_msgCount s
    · rw [enqueueTakeNode_of_some _ tgt tp ty a hf]
      refine ⟨fun _ => ⟨?_, ?_⟩, fun h => (nomatch h)⟩
      · show (if s.freeCount = 0 then (s.allocateMsgNodesChunk).1 else s).queue ++ _ = _
        rw [growIfNeeded_queue s]
      · show (if s.freeCount = 0 then (s.allocateMsgNodesChunk).1 else s).msgCount + 1 = _
        rw [growIfNeeded_msgCount s]

/-- C5 (amended): Task::tell and Task::publish are void and surface no
result to the producer; the boolean exists only on the internal
Scheduler::enqueueQueuedMessage, which returns true exactly when the
message was appended to the queue (and false exactly when the queue is
left unchanged). -/
theorem C5_enqueue_result (s : Scheduler) (tgt tp ty a : Nat) :
    ((s.enqueueQueuedMessage tgt tp ty a).2 = true →
      (s.enqueueQueuedMessage tgt tp ty a).1.queue = s.queue ++ [⟨tgt, tp, ty, a⟩] ∧
      (s.enqueueQueuedMessage tgt tp ty a).1.msgCount = s.msgCount + 1) ∧
    ((s.enqueueQueuedMessage tgt tp ty a).2 = false →
      (s.enqueueQueuedMessage tgt tp ty a).1.queue = s.queue ∧
      (s.enqueueQueuedMessage tgt tp ty a).1.msgCount = s.msgCount) :=
  enqueueQueuedMessage_spec s tgt tp ty a

/-- Witness for C5's amended theorem: the successful enqueue onto the
empty baseline queue appends the message and bumps msgCount. -/
theorem C5_witness :
    ((baseSched.enqueueQueuedMessage 2 0 7 42).2 = true →
      (baseSched.enqueueQueuedMessage 2 0 7 42).1.queue =
        baseSched.queue ++ [⟨2, 0, 7, 42⟩] ∧
      (baseSched.enqueueQueuedMessage 2 0 7 42).1.msgCount =
        baseSched.msgCount + 1) ∧
    ((baseSched.enqueueQueuedMessage 2 0 7 42).2 = false →
      (baseSched.enqueueQueuedMessage 2 0 7 42).1.queue = baseSched.queue ∧
      (baseSched.enqueueQueuedMessage 2 0 7 42).1.msgCount = baseSched.msgCount) :=
  C5_enqueue_result baseSched 2 0 7 42

/-! ## C6 -/

/-- An enqueue is refused exactly when the hard cap is hit or the
free-list is empty and cannot grow (the node total is at the cap). -/
theorem enqueueQueuedMessage_false_iff (s : Scheduler) (tgt tp ty a : Nat) :
    (s.enqueueQueuedMessage tgt tp ty a).2 = false ↔
      (MAX_MESSAGE_POOL_SIZE ≤ s.msgCount ∨
       (s.freeCount = 0 ∧ MAX_MESSAGE_POOL_SIZE ≤ s.totalNodes)) := by
  unfold Scheduler.enqueueQueuedMessage
  by_cases h1 : s.msgCount ≥ MAX_MESSAGE_POOL_SIZE
  · rw [if_pos h1]
    simpa using Or.inl h1
  · rw [if_neg h1]
    by_cases hf : s.freeCount = 0
    · rw [if_pos hf]
      by_cases ht : MAX_MESSAGE_POOL_SIZE ≤ s.totalNodes
      · rw [allocateMsgNodesChunk_eq_of_cap s ht]
        rw [enqueueTakeNode_of_none _ tgt tp ty a hf]
        simpa using Or.inr ⟨hf, ht⟩
      · have hpos := allocateMsgNodesChunk_freeCount_pos s (by omega)
        rw [enqueueTakeNode_of_some _ tgt tp ty a (by omega)]
        constructor
        · intro h; cases h
        · intro h
          rcases h with h | ⟨h2, h3⟩
          · exact absurd h h1
          · exact absurd h3 ht
    · rw [if_neg hf]
      rw [enqueueTakeNode_of_some _ tgt tp ty a hf]
      constructor
      · intro h; cases h
      · intro h
        rcases h with h | ⟨h2, h3⟩
        · exact absurd h h1
        · exact absurd h2 hf

/-- 32 successive direct enqueues onto an initially empty queue, with a
flag recording that every enqueue so far succeeded. -/
def fillQueue : Nat → Scheduler × Bool
  | 0 => ({ baseSched with tasks := [] }, true)
  | n+1 =>
    let r := fillQueue n
    let r2 := r.1.enqueueQueuedMessage 1 0 7 n
    (r2.1, r.2 && r2.2)

/-- C6: an enqueue returns false exactly when msgCount has reached
MAX_MESSAGE_POOL_SIZE or the free-list is empty and cannot grow
(node total at the hard cap); concretely, 32 enqueues from empty all
succeed, a 33rd is refused, and after dequeueing one message and
recycling its node the next enqueue succeeds again. -/
theorem C6_queue_hard_cap :
    (∀ (s : Scheduler) (tgt tp ty a : Nat),
      (s.enqueueQueuedMessage tgt tp ty a).2 = false ↔
        (MAX_MESSAGE_POOL_SIZE ≤ s.msgCount ∨
         (s.freeCount = 0 ∧ MAX_MESSAGE_POOL_SIZE ≤ s.totalNodes))) ∧
    (fillQueue 32).2 = true ∧
    (fillQueue 32).1.msgCount = 32 ∧
    ((fillQueue 32).1.enqueueQueuedMessage 1 0 7 99).2 = false ∧
    (((((fillQueue 32).1.dequeueQueuedMessage).1.deallocateMsgNode).enqueueQueuedMessage
        1 0 7 99).2 = true) := by
  refine ⟨enqueueQueuedMessage_false_iff, by decide, by decide, by decide, by decide⟩

/-! ## C3 -/

theorem enqueueQueuedMessage_queue_mem {s : Scheduler} {tgt tp ty a : Nat}
    {m : QueuedMessage}
    (hm : m ∈ (s.enqueueQueuedMessage tgt tp ty a).1.queue) :
    m ∈ s.queue ∨ m = ⟨tgt, tp, ty, a⟩ := by
  rcases Bool.eq_false_or_eq_true (s.enqueueQueuedMessage tgt tp ty a).2 with h | h
  · rw [((enqueueQueuedMessage_spec s tgt tp ty a).1 h).1] at hm
    rcases List.mem_append.mp hm with h2 | h2
    · exact Or.inl h2
    · exact Or.inr (List.mem_singleton.mp h2)
  · rw [((enqueueQueuedMessage_spec s tgt tp ty a).2 h).1] at hm
    exact Or.inl hm

theorem publish_fold_queue_mem (topic type arg : Nat) :
    ∀ (l : List Task) (st : Scheduler) (m : QueuedMessage),
      m ∈ (l.foldl (fun st2 t =>
          if t.state = TaskState.ACTIVE ∧ t.isSubscribedToTopic topic then
            (st2.enqueueQueuedMessage t.taskId topic type arg).1
          else st2) st).queue →
      m ∈ st.queue ∨
      ∃ t ∈ l, t.taskId = m.targetTaskId ∧ t.state = TaskState.ACTIVE ∧
        t.isSubscribedToTopic topic = true := by
  intro l
  induction l with
  | nil => intro st m hm; exact Or.inl hm
  | cons t rest ih =>
    intro st m hm
    simp only [List.foldl_cons] at hm
    rcases ih _ m hm with hmem | ⟨t2, ht2, h⟩
    · by_cases hc : t.state = TaskState.ACTIVE ∧ t.isSubscribedToTopic topic
      · rw [if_pos hc] at hmem
        rcases enqueueQueuedMessage_queue_mem hmem with h1 | h2
        · exact Or.inl h1
        · refine Or.inr ⟨t, List.mem_cons_self t rest, ?_, hc.1, hc.2⟩
          rw [h2]
      · rw [if_neg hc] at hmem
        exact Or.inl hmem
    · exact Or.inr ⟨t2, List.mem_cons_of_mem t ht2, h⟩

/-- C3 (amended): messages aimed at a task that is not ACTIVE are
dropped at enqueue time and nothing is buffered anywhere: a direct tell
to a SUSPENDED target leaves the scheduler state unchanged
(Scheduler::sendMessage returns early, FsmOS.cpp 979-983), and a publish
enqueues copies only for subscribers that are ACTIVE
(Scheduler::publishMessage, FsmOS.cpp 968-974); this implementation has
no suspended queue and no queue_while_suspended flag, so nothing is
delivered after resume. -/
theorem C3_suspended_messages_dropped (s : Scheduler) (id type arg topic : Nat) :
    (∀ t, s.getTask id = some t → t.state = TaskState.SUSPENDED →
       s.sendMessage id type arg = s) ∧
    (∀ m ∈ (s.publishMessage topic type arg).queue,
       m ∈ s.queue ∨
       ∃ t ∈ s.tasks, t.taskId = m.targetTaskId ∧ t.state = TaskState.ACTIVE ∧
         t.isSubscribedToTopic topic = true) := by
  constructor
  · intro t ht hsusp
    unfold Scheduler.sendMessage
    rw [ht]
    show (if t.state = TaskState.ACTIVE then (s.enqueueQueuedMessage id 0 type arg).1 else s) = s
    rw [if_neg (by rw [hsusp]; intro hcon; cases hcon)]
  · intro m hm
    exact publish_fold_queue_mem topic type arg s.tasks s m hm

/-- The suspension-queuing scenario of the spec: task 1 is SUSPENDED and
subscribed to topic 2 (bit 2 of the bitfield). -/
def suspendedSubscriber : Task :=
  { baseTask with state := TaskState.SUSPENDED, subscribedTopics := 4, periodMs := 5 }

/-- Scheduler holding only the suspended subscriber, empty queue. -/
def suspendedSched : Scheduler := { baseSched with tasks := [suspendedSubscriber] }

/-- The state after task 1 has been resumed, following three publishes
on topic 2 made while it was suspended. -/
def suspendedSchedResumed : Scheduler :=
  let s1 := Task.publish (Task.publish (Task.publish suspendedSched 2 7 42) 2 7 42) 2 7 42
  { s1 with tasks := s1.tasks.map Task.resume }

/-- Witness for C3's amended theorem, applied at the suspended-subscriber
state. -/
theorem C3_witness :
    (∀ t, suspendedSched.getTask 1 = some t → t.state = TaskState.SUSPENDED →
       suspendedSched.sendMessage 1 7 42 = suspendedSched) ∧
    (∀ m ∈ (suspendedSched.publishMessage 2 7 42).queue,
       m ∈ suspendedSched.queue ∨
       ∃ t ∈ suspendedSched.tasks, t.taskId = m.targetTaskId ∧
         t.state = TaskState.ACTIVE ∧ t.isSubscribedToTopic 2 = true) :=
  C3_suspended_messages_dropped suspendedSched 1 7 42 2

/-- C3 (counterexample to the claim as stated): the claim says messages
published to a suspended subscriber are buffered in its suspended queue
and delivered via on_msg after resume.  In this implementation the three
publishes made while task 1 is SUSPENDED change nothing at all (no
buffering anywhere in kernel state), and on the first tick after
resume() no on_msg delivery happens (the delivered log of
Scheduler::processMessages stays empty). -/
theorem C3_counterexample :
    suspendedSubscriber.state = TaskState.SUSPENDED ∧
    suspendedSubscriber.isSubscribedToTopic 2 = true ∧
    Task.publish (Task.publish (Task.publish suspendedSched 2 7 42) 2 7 42) 2 7 42 =
      suspendedSched ∧
    (suspendedSchedResumed.loopOnce 100).delivered = [] ∧
    (suspendedSchedResumed.loopOnce 100).queue = [] := by
  refine ⟨by decide, by decide, by decide, by decide, by decide⟩

/-! ## C4 -/

/-- sub32 is plain subtraction when b is at most a and a is below 2^32. -/
theorem sub32_eq_sub {a b : Nat} (hba : b ≤ a) (ha : a < U32) :
    sub32 a b = a - b := by
  unfold sub32
  have hb : b % U32 = b := Nat.mod_eq_of_lt (lt_of_le_of_lt hba ha)
  rw [hb]
  have h1 : a + U32 - b = (a - b) + U32 := by omega
  rw [h1, Nat.add_mod_right]
  exact Nat.mod_eq_of_lt (by omega)

/-- C4 (amended): period adherence does not hold as stated; what every
dispatch does is this.  When the dispatch happens at a current time of
at least the task period, Scheduler::handleTaskTiming (which sets
scheduled_time = current_time - period and actual_start_time =
current_time) records actual_start_time - scheduled_time = period_ms
(at least 1, never 0) and increments delay_count — even when at most
one task is ready.  In the remaining case current_time < period_ms
(reachable at a task's first dispatch shortly after boot), the uint32
subtraction wraps, scheduled_time = current_time - period_ms + 2^32
exceeds actual_start_time = current_time, and no delay is recorded:
delay_count is unchanged.  In neither case is a difference of 0
recorded.  Hypotheses: period_ms is a nonzero uint16 (the constructor
default is 100 and setPeriod clamps into [1, 65535]) and the current
time is a uint32 value. -/
theorem C4_delay_recorded (t : Task) (now : Nat)
    (hp : 1 ≤ t.periodMs) (hp16 : t.periodMs ≤ 65535) (hlt : now < U32) :
    (t.periodMs ≤ now →
      (t.handleTaskTiming now).actualStartTime -
        (t.handleTaskTiming now).scheduledTime = t.periodMs ∧
      (t.handleTaskTiming now).actualStartTime ≠
        (t.handleTaskTiming now).scheduledTime ∧
      (t.handleTaskTiming now).delayCount = (t.delayCount + 1) % U16) ∧
    (now < t.periodMs →
      (t.handleTaskTiming now).delayCount = t.delayCount ∧
      (t.handleTaskTiming now).actualStartTime = now ∧
      (t.handleTaskTiming now).scheduledTime = now + U32 - t.periodMs ∧
      (t.handleTaskTiming now).actualStartTime ≠
        (t.handleTaskTiming now).scheduledTime) := by
  constructor
  · intro hnow
    have hs : sub32 now t.periodMs = now - t.periodMs := sub32_eq_sub hnow hlt
    unfold Task.handleTaskTiming
    rw [hs]
    rw [if_pos (by omega : now > now - t.periodMs)]
    refine ⟨?_, ?_, ?_⟩ <;> simp <;> omega
  · intro hnow
    have hu32 : U32 = 4294967296 := rfl
    have hs : sub32 now t.periodMs = now + U32 - t.periodMs := by
      unfold sub32
      have hpm : t.periodMs % U32 = t.periodMs := Nat.mod_eq_of_lt (by omega)
      rw [hpm]
      exact Nat.mod_eq_of_lt (by omega)
    unfold Task.handleTaskTiming
    rw [hs]
    rw [if_neg (by omega : ¬ now > now + U32 - t.periodMs)]
    refine ⟨?_, ?_, ?_, ?_⟩ <;> simp <;> omega

/-- Witness for C4's amended theorem: the delay branch at current time
1000 and the wrap branch at current time 5, both for the period-10
baseline task. -/
theorem C4_witness :
    (baseTask.periodMs ≤ 1000) ∧ ((5 : Nat) < baseTask.periodMs) ∧
    ((baseTask.periodMs ≤ 1000 →
      (baseTask.handleTaskTiming 1000).actualStartTime -
        (baseTask.handleTaskTiming 1000).scheduledTime = baseTask.periodMs ∧
      (baseTask.handleTaskTiming 1000).actualStartTime ≠
        (baseTask.handleTaskTiming 1000).scheduledTime ∧
      (baseTask.handleTaskTiming 1000).delayCount =
        (baseTask.delayCount + 1) % U16) ∧
    ((1000 : Nat) < baseTask.periodMs →
      (baseTask.handleTaskTiming 1000).delayCount = baseTask.delayCount ∧
      (baseTask.handleTaskTiming 1000).actualStartTime = 1000 ∧
      (baseTask.handleTaskTiming 1000).scheduledTime =
        1000 + U32 - baseTask.periodMs ∧
      (baseTask.handleTaskTiming 1000).actualStartTime ≠
        (baseTask.handleTaskTiming 1000).scheduledTime)) ∧
    ((baseTask.periodMs ≤ 5 →
      (baseTask.handleTaskTiming 5).actualStartTime -
        (baseTask.handleTaskTiming 5).scheduledTime = baseTask.periodMs ∧
      (baseTask.handleTaskTiming 5).actualStartTime ≠
        (baseTask.handleTaskTiming 5).scheduledTime ∧
      (baseTask.handleTaskTiming 5).delayCount =
        (baseTask.delayCount + 1) % U16) ∧
    ((5 : Nat) < baseTask.periodMs →
      (baseTask.handleTaskTiming 5).delayCount = baseTask.delayCount ∧
      (baseTask.handleTaskTiming 5).actualStartTime = 5 ∧
      (baseTask.handleTaskTiming 5).scheduledTime =
        5 + U32 - baseTask.periodMs ∧
      (baseTask.handleTaskTiming 5).actualStartTime ≠
        (baseTask.handleTaskTiming 5).scheduledTime)) :=
  ⟨by decide, by decide,
    C4_delay_recorded baseTask 1000 (by decide) (by decide) (by decide),
    C4_delay_recorded baseTask 5 (by decide) (by decide) (by decide)⟩

/-- A scheduler with a single ready task of period 100, so that at most
one task is ready at the tick. -/
def singleTaskSched : Scheduler :=
  { baseSched with tasks := [{ baseTask with periodMs := 100 }] }

/-- C4 (counterexample to the claim as stated): with a single task
(hence at most one task ready at each tick), the first dispatch at time
1000 records actual_start_time - scheduled_time = 100 (the period, not
0) and increments delay_count to 1. -/
theorem C4_counterexample :
    (singleTaskSched.loopOnce 1000).tasks.map
      (fun t => (t.actualStartTime - t.scheduledTime, t.delayCount)) = [(100, 1)] ∧
    (100 : Nat) ≠ 0 := by
  constructor
  · decide
  · decide

/-! ## C7 -/

/-- The allocate-then-free probe used against the pool: starting from
the freshly constructed pool, step 0 performs one allocate whose record
is kept live for the rest of the trace; every later step allocates one
record and immediately deallocates that same record.  The trace records
the index returned by every allocate. -/
def c7Trace : Nat → MsgDataPool × List (Option Nat)
  | 0 =>
    let r := MsgDataPool.mkEmpty.allocate
    (r.1, [r.2])
  | n+1 =>
    let r := c7Trace n
    let r2 := r.1.allocate
    ((r2.1.deallocate (r2.2.getD 0)), r.2 ++ [r2.2])

set_option maxRecDepth 4096 in
/-- C7 (the code violates the claim): record 0 is handed out twice while
still live.  The very first allocate returns record index 0, which is
never deallocated afterwards (each later step deallocates only the
record it just allocated, and none of those is record 0, as the middle
entries of the trace show); yet the allocate of step 18 returns record
index 0 again — MsgDataPool::allocate advances next_free cyclically
without checking whether the record there is free, and
updateAdaptiveLimit shrinks pool_size so the cursor wraps onto the live
record, which allocate then zeroes and hands out as fresh.  So two live
allocations alias the same record and ref_count 0 does not characterise
pool-free records. -/
theorem C7_pool_aliasing :
    (c7Trace 18).2.head? = some (some 0) ∧
    (c7Trace 18).2.getLast? = some (some 0) ∧
    ((c7Trace 18).2.drop 1).dropLast.all (fun o => o ≠ some 0) = true ∧
    (c7Trace 18).2.length = 19 ∧
    (c7Trace 17).1.currentInUse = 1 := by
  refine ⟨by decide, by decide, by decide, by decide, by decide⟩

/-! ## C8 -/

set_option maxRecDepth 8192 in
/-- C8: for every raw flags byte, Scheduler::getResetCause agrees with
the spec's counting rule (UNKNOWN when no known cause bit is set,
MULTIPLE when more than one of the four known bits is set, otherwise the
enumerator of the single set bit), and the ResetCause enumeration has
the stable values UNKNOWN=0, POWER_ON=1, EXTERNAL=2, BROWN_OUT=3,
WATCHDOG=4, MULTIPLE=5. -/
theorem C8_reset_cause_decode :
    (∀ flags : Fin 256, getResetCause flags.val = specResetCause flags.val) ∧
    ResetCause.toCode ResetCause.RESET_UNKNOWN = 0 ∧
    ResetCause.toCode ResetCause.RESET_POWER_ON = 1 ∧
    ResetCause.toCode ResetCause.RESET_EXTERNAL = 2 ∧
    ResetCause.toCode ResetCause.RESET_BROWN_OUT = 3 ∧
    ResetCause.toCode ResetCause.RESET_WATCHDOG = 4 ∧
    ResetCause.toCode ResetCause.RESET_MULTIPLE = 5 := by
  refine ⟨by decide, rfl, rfl, rfl, rfl, rfl, rfl⟩

/-! ## C9 -/

/-- A task whose subscription bitfield already has bit 2 set. -/
def subscribedBit2Task : Task := { baseTask with subscribedTopics := 4 }

/-- C9 (counterexample to the claim as stated): when the bit is already
set before the pair of calls, subscribe(t) is idempotent but
unsubscribe(t) clears the bit, so the bitfield is not restored. -/
theorem C9_counterexample :
    ((subscribedBit2Task.subscribe 2).unsubscribe 2).subscribedTopics ≠
      subscribedBit2Task.subscribedTopics := by
  decide

/-- C9 (amended): for every topic t and every prior subscription
bitfield in which the task is not already subscribed to t (in
particular, every topic at or beyond MAX_TOPICS, where both calls are
silent no-ops), subscribe(t) followed by unsubscribe(t) restores the
task, bitfield included. -/
theorem C9_subscribe_roundtrip (t : Task) (topic : Nat)
    (hw : t.subscribedTopics < 65536)
    (hsub : t.isSubscribedToTopic topic = false) :
    (t.subscribe topic).unsubscribe topic = t := by
  by_cases ht : topic < MAX_TOPICS
  · have hb : t.subscribedTopics.testBit topic = false := by
      unfold Task.isSubscribedToTopic at hsub
      rw [if_neg (by omega)] at hsub
      have hz : t.subscribedTopics &&& (1 <<< topic) = 0 := by
        simpa using hsub
      have h2 := congrArg (fun n => n.testBit topic) hz
      simpa [Nat.testBit_and, Nat.shiftLeft_eq, Nat.testBit_two_pow] using h2
    have ht16 : topic < 16 := ht
    obtain ⟨id0, st0, pr0, rt0, pd0, sub0, bud0, rc0, mx0, av0, sc0, ac0, dc0, md0⟩ := t
    simp only [Task.subscribe, Task.unsubscribe] at *
    rw [if_pos ht, if_pos ht]
    simp only [Task.mk.injEq, and_true, true_and]
    apply Nat.eq_of_testBit_eq
    intro i
    have h65 : (65535 : Nat) = 2 ^ 16 - 1 := rfl
    simp only [Nat.testBit_and, Nat.testBit_or, Nat.testBit_xor, h65,
               Nat.testBit_two_pow_sub_one, Nat.shiftLeft_eq, one_mul,
               Nat.testBit_two_pow]
    by_cases hit : topic = i
    · subst hit
      simp only [decide_eq_true_eq] at hb ⊢
      simp [hb, ht16]
    · by_cases hi : i < 16
      · simp [hit, hi]
      · have hzero : Nat.testBit sub0 i = false := by
          refine Nat.testBit_eq_false_of_lt (lt_of_lt_of_le hw ?_)
          calc (65536 : Nat) = 2 ^ 16 := rfl
            _ ≤ 2 ^ i := Nat.pow_le_pow_right (by omega) (by omega)
        simp [hit, hi, hzero]
  · unfold Task.subscribe Task.unsubscribe
    rw [if_neg ht, if_neg ht]

/-- Witness for C9's amended theorem: the round trip on topic 3 restores
the baseline task, which is not subscribed to topic 3. -/
theorem C9_witness :
    (baseTask.subscribe 3).unsubscribe 3 = baseTask :=
  C9_subscribe_roundtrip baseTask 3 (by decide) (by decide)

/-! ## C10 -/

theorem tickCountdown_taskId (t : Task) : t.tickCountdown.taskId = t.taskId := by
  unfold Task.tickCountdown
  split <;> rfl

theorem tickCountdown_state (t : Task) : t.tickCountdown.state = t.state := by
  unfold Task.tickCountdown
  split <;> rfl

theorem tickCountdown_periodMs (t : Task) : t.tickCountdown.periodMs = t.periodMs := by
  unfold Task.tickCountdown
  split <;> rfl

theorem handleTaskTiming_state (t : Task) (now : Nat) :
    (t.handleTaskTiming now).state = t.state := by
  simp only [Task.handleTaskTiming]
  split <;> rfl

theorem handleTaskTiming_taskId (t : Task) (now : Nat) :
    (t.handleTaskTiming now).taskId = t.taskId := by
  simp only [Task.handleTaskTiming]
  split <;> rfl

theorem handleTaskTiming_periodMs (t : Task) (now : Nat) :
    (t.handleTaskTiming now).periodMs = t.periodMs := by
  simp only [Task.handleTaskTiming]
  split <;> rfl

theorem updateTaskStatistics_state (t : Task) (e : Nat) :
    (t.updateTaskStatistics e).state = t.state := by
  simp only [Task.updateTaskStatistics]
  repeat' split
  all_goals rfl

theorem updateTaskStatistics_taskId (t : Task) (e : Nat) :
    (t.updateTaskStatistics e).taskId = t.taskId := by
  simp only [Task.updateTaskStatistics]
  repeat' split
  all_goals rfl

theorem updateTaskStatistics_remainingTime (t : Task) (e : Nat) :
    (t.updateTaskStatistics e).remainingTime = t.remainingTime := by
  simp only [Task.updateTaskStatistics]
  repeat' split
  all_goals rfl

theorem executedTask_state (t : Task) (now : Nat) :
    (executedTask t now).state = t.state := by
  unfold executedTask
  rw [updateTaskStatistics_state]
  show (t.handleTaskTiming now).state = t.state
  exact handleTaskTiming_state t now

theorem executedTask_taskId (t : Task) (now : Nat) :
    (executedTask t now).taskId = t.taskId := by
  unfold executedTask
  rw [updateTaskStatistics_taskId]
  show (t.handleTaskTiming now).taskId = t.taskId
  exact handleTaskTiming_taskId t now

theorem executedTask_remainingTime (t : Task) (now : Nat) :
    (executedTask t now).remainingTime = t.periodMs := by
  unfold executedTask
  rw [updateTaskStatistics_remainingTime]
  show (t.handleTaskTiming now).periodMs = t.periodMs
  exact handleTaskTiming_periodMs t now

theorem preDispatchState_tasks (s : Scheduler) (nowMs : Nat) :
    (s.preDispatchState nowMs).tasks = s.tasks.map Task.tickCountdown := rfl

theorem executeTask_tasks (s : Scheduler) (t : Task)
    (hst : t.state = TaskState.ACTIVE) :
    (s.executeTask t).tasks = s.tasks.map (fun u =>
      if u.taskId = t.taskId then executedTask t s.systemTime else u) := by
  unfold Scheduler.executeTask
  rw [if_neg (by simp [hst])]
  unfold Scheduler.checkForTerminatedTask
  rw [if_neg (by rw [executedTask_state, hst]; intro hcon; cases hcon)]

/-- The per-task effect of the countdown phase, packaged for the main
theorem. -/
theorem tickCountdown_remainingTime_cases (u : Task) :
    (u.state ≠ TaskState.ACTIVE → u.tickCountdown = u) ∧
    (u.tickCountdown.remainingTime = u.remainingTime ∨
     u.tickCountdown.remainingTime = u.remainingTime - 1) ∧
    (u.state = TaskState.ACTIVE →
      u.tickCountdown.remainingTime = u.remainingTime - 1) ∧
    (u.remainingTime = 0 → u.tickCountdown.remainingTime = 0) := by
  unfold Task.tickCountdown
  by_cases h : u.state = TaskState.ACTIVE ∧ u.remainingTime > 0
  · rw [if_pos h]
    refine ⟨fun hn => absurd h.1 hn, Or.inr rfl, fun _ => rfl, fun h0 => ?_⟩
    show u.remainingTime - 1 = 0
    omega
  · rw [if_neg h]
    have hz : u.state = TaskState.ACTIVE → u.remainingTime = 0 := by
      intro ha
      by_contra hnz
      exact h ⟨ha, by omega⟩
    refine ⟨fun _ => rfl, Or.inl rfl, fun ha => ?_, fun h0 => h0⟩
    have := hz ha
    omega

/-- The conjunction of countdown facts for a task that is only ticked
(not dispatched) in a loopOnce pass. -/
theorem countdown_conclusions (u : Task) :
    (u.state ≠ TaskState.ACTIVE →
       u.tickCountdown.remainingTime = u.remainingTime ∧
       u.tickCountdown.state = u.state) ∧
    (u.state = TaskState.ACTIVE ∧ u.remainingTime = 0 →
       u.tickCountdown.remainingTime = 0 ∨
       u.tickCountdown.remainingTime = u.periodMs) ∧
    (u.state = TaskState.ACTIVE →
       u.tickCountdown.remainingTime = u.remainingTime - 1 ∨
       u.tickCountdown.remainingTime = u.periodMs) ∧
    (u.tickCountdown.remainingTime = u.remainingTime ∨
     u.tickCountdown.remainingTime = u.remainingTime - 1 ∨
     u.tickCountdown.remainingTime = u.periodMs) := by
  obtain ⟨h1, h2, h3, h4⟩ := tickCountdown_remainingTime_cases u
  refine ⟨fun hn => by rw [h1 hn]; exact ⟨rfl, rfl⟩, ?_, fun ha => Or.inl (h3 ha), ?_⟩
  · rintro ⟨ha, h0⟩
    exact Or.inl (h4 h0)
  · rcases h2 with h | h
    · exact Or.inl h
    · exact Or.inr (Or.inl h)

/-- C10: in each loopOnce pass (with the scheduler running and task ids
unique), the task list keeps its length, and every task's remainingTime
either stays unchanged, or decreases by exactly 1 (only when the task is
ACTIVE with remainingTime > 0, so the unsigned counter never wraps past
zero), or is reset to the period by the dispatch of that task; a task at
0 stays at 0 unless dispatched, and SUSPENDED, INACTIVE and TERMINATED
tasks keep both their remainingTime and their state. -/
theorem C10_countdown_safe (s : Scheduler) (nowMs : Nat)
    (hrun : s.running = true)
    (hids : s.tasks.Pairwise (fun a b => a.taskId ≠ b.taskId)) :
    (s.loopOnce nowMs).tasks.length = s.tasks.length ∧
    ∀ (i : Nat) (u v : Task), s.tasks.get? i = some u →
      (s.loopOnce nowMs).tasks.get? i = some v →
      ((u.state ≠ TaskState.ACTIVE →
          v.remainingTime = u.remainingTime ∧ v.state = u.state) ∧
       (u.state = TaskState.ACTIVE ∧ u.remainingTime = 0 →
          v.remainingTime = 0 ∨ v.remainingTime = u.periodMs) ∧
       (u.state = TaskState.ACTIVE →
          v.remainingTime = u.remainingTime - 1 ∨ v.remainingTime = u.periodMs) ∧
       (v.remainingTime = u.remainingTime ∨
        v.remainingTime = u.remainingTime - 1 ∨
        v.remainingTime = u.periodMs)) := by
  cases hfind : (s.preDispatchState nowMs).findNextTask with
  | none =>
    have hres : s.loopOnce nowMs = s.preDispatchState nowMs := by
      unfold Scheduler.loopOnce
      rw [if_neg (by simp [hrun])]
      show (match (s.preDispatchState nowMs).findNextTask with
            | none => s.preDispatchState nowMs
            | some t => (s.preDispatchState nowMs).executeTask t) = _
      rw [hfind]
    constructor
    · rw [hres, preDispatchState_tasks, List.length_map]
    · intro i u v hu hv
      rw [hres, preDispatchState_tasks, List.get?_map, hu, Option.map_some'] at hv
      have hv2 := Option.some.inj hv
      rw [← hv2]
      exact countdown_conclusions u
  | some t =>
    have hres : s.loopOnce nowMs = (s.preDispatchState nowMs).executeTask t := by
      unfold Scheduler.loopOnce
      rw [if_neg (by simp [hrun])]
      show (match (s.preDispatchState nowMs).findNextTask with
            | none => s.preDispatchState nowMs
            | some t2 => (s.preDispatchState nowMs).executeTask t2) = _
      rw [hfind]
    have hready : readyTask (s.preDispatchState nowMs).getFreeQueueSlots t :=
      findNextTaskGo_ready _ _ _ (fun b hb => by cases hb) hfind
    have hstate_t : t.state = TaskState.ACTIVE := hready.1
    have htasks : (s.loopOnce nowMs).tasks =
        (s.tasks.map Task.tickCountdown).map (fun u =>
          if u.taskId = t.taskId then
            executedTask t (s.preDispatchState nowMs).systemTime
          else u) := by
      rw [hres, executeTask_tasks _ _ hstate_t, preDispatchState_tasks]
    constructor
    · rw [htasks, List.length_map, List.length_map]
    · intro i u v hu hv
      rw [htasks, List.get?_map, List.get?_map, hu, Option.map_some',
          Option.map_some'] at hv
      have hv2 := Option.some.inj hv
      by_cases hid : u.tickCountdown.taskId = t.taskId
      · rw [if_pos hid] at hv2
        have hmem : t ∈ s.tasks.map Task.tickCountdown := by
          rcases findNextTaskGo_mem _ _ _ hfind with hm | hb
          · rw [preDispatchState_tasks] at hm
            exact hm
          · cases hb
        obtain ⟨j, hj⟩ := List.mem_iff_get?.mp hmem
        rw [List.get?_map] at hj
        rcases Option.map_eq_some'.mp hj with ⟨w, hw, hwt⟩
        have hidu : u.taskId = t.taskId := by
          rw [← tickCountdown_taskId u]
          exact hid
        have hidw : w.taskId = t.taskId := by
          rw [← tickCountdown_taskId w, hwt]
        have hij : i = j := by
          by_contra hne
          obtain ⟨hi, hgu⟩ := List.get?_eq_some.mp hu
          obtain ⟨hjlt, hgw⟩ := List.get?_eq_some.mp hw
          rcases Nat.lt_or_ge i j with hlt | hge
          · have hp := List.pairwise_iff_get.mp hids ⟨i, hi⟩ ⟨j, hjlt⟩ hlt
            rw [hgu, hgw] at hp
            exact hp (hidu.trans hidw.symm)
          · have hlt2 : j < i := by omega
            have hp := List.pairwise_iff_get.mp hids ⟨j, hjlt⟩ ⟨i, hi⟩ hlt2
            rw [hgw, hgu] at hp
            exact hp (hidw.trans hidu.symm)
        subst hij
        rw [hu] at hw
        have hwu := Option.some.inj hw
        have htu : t = u.tickCountdown := by
          rw [← hwt, hwu]
        have hvrem : v.remainingTime = u.periodMs := by
          rw [← hv2, executedTask_remainingTime, htu, tickCountdown_periodMs]
        have hust : u.state = TaskState.ACTIVE := by
          rw [← tickCountdown_state u, ← htu]
          exact hstate_t
        exact ⟨fun hn => absurd hust hn, fun _ => Or.inr hvrem,
               fun _ => Or.inr hvrem, Or.inr (Or.inr hvrem)⟩
      · rw [if_neg hid] at hv2
        rw [← hv2]
        exact countdown_conclusions u

/-- Witness for C10 at the baseline two-task state with both ids
distinct: apply the theorem at tick time 50. -/
theorem C10_witness :
    (baseSched.loopOnce 50).tasks.length = baseSched.tasks.length ∧
    ∀ (i : Nat) (u v : Task), baseSched.tasks.get? i = some u →
      (baseSched.loopOnce 50).tasks.get? i = some v →
      ((u.state ≠ TaskState.ACTIVE →
          v.remainingTime = u.remainingTime ∧ v.state = u.state) ∧
       (u.state = TaskState.ACTIVE ∧ u.remainingTime = 0 →
          v.remainingTime = 0 ∨ v.remainingTime = u.periodMs) ∧
       (u.state = TaskState.ACTIVE →
          v.remainingTime = u.remainingTime - 1 ∨ v.remainingTime = u.periodMs) ∧
       (v.remainingTime = u.remainingTime ∨
        v.remainingTime = u.remainingTime - 1 ∨
        v.remainingTime = u.periodMs)) :=
  C10_countdown_safe baseSched 50 (by decide) (by decide)

end FsmOS

